import Mathlib

/-!
Verification of the workflow-executor core of the Arkainbrain slot-studio
pipeline (src/flows/pipeline.py and src/web_app.py), as a shallow embedding.

Machine integers do not overflow in any of the embedded code paths (timeouts,
timestamps and counters stay tiny), so they are modelled as Nat/Int directly.
-/

namespace Arkainbrain

/-! ## Stage timeouts (flows/pipeline.py, STAGE_TIMEOUTS)

Default values of the TIMEOUT_* environment variables, in seconds. -/

def STAGE_TIMEOUTS : List (String × Nat) :=
  [("research", 900), ("design", 900), ("mood_board", 600),
   ("production", 1800), ("recon", 600)]

/-- STAGE_TIMEOUTS.get(stage_name, 1200): dictionary lookup with default. -/
def stageTimeout (stage : String) : Nat :=
  ((STAGE_TIMEOUTS.lookup stage).getD 1200)

/-- Sum of the per-stage timeout budget over all configured stages. -/
def sumStageTimeouts : Nat :=
  (STAGE_TIMEOUTS.map Prod.snd).sum

/-! ## Stage Invocation Envelope (flows/pipeline.py, run_crew_with_timeout)

The work unit (crew.kickoff()) runs on a daemon thread; the caller joins with
a timeout.  One execution of the work unit is modelled by how long it runs,
whether it ends in an exception or a result (Python may return None, hence
Option), and the shared pipeline state visible after t seconds of execution
(the partial mutations applied so far). -/

structure CrewExec (σ α : Type) where
  /-- total wall-clock runtime of crew.kickoff() on the worker thread -/
  duration : Nat
  /-- .error e models kickoff raising e; .ok none models returning None -/
  outcome : Except String (Option α)
  /-- shared pipeline state visible after t seconds of the work running -/
  stateAt : Nat → σ

/-- Everything the caller of run_crew_with_timeout observes on return. -/
structure EnvelopeObs (σ α : Type) where
  /-- the Python return / raise: .ok none is the timeout signal (or a None
      result), .ok (some r) a result, .error e a re-raised exception -/
  retval : Except String (Option α)
  /-- the shared state at the moment control returns to the caller -/
  callerState : σ
  /-- whether the daemon thread is still running the work (never killed) -/
  workerStillRunning : Bool
  /-- seconds after invocation at which control returns to the caller -/
  returnTime : Nat

/-- run_crew_with_timeout: join the worker thread for the stage's timeout.
If the thread is still alive, return None and leave it running; otherwise
re-raise a captured exception or return the captured result. -/
def run_crew_with_timeout (stage : String) (w : CrewExec σ α) : EnvelopeObs σ α :=
  let timeout := stageTimeout stage
  if timeout < w.duration then
    -- thread.is_alive() after join(timeout): the work outlives the timeout
    { retval := .ok none
      callerState := w.stateAt timeout
      workerStillRunning := true
      returnTime := timeout }
  else
    match w.outcome with
    | .error e =>
        { retval := .error e
          callerState := w.stateAt w.duration
          workerStillRunning := false
          returnTime := w.duration }
    | .ok r =>
        { retval := .ok r
          callerState := w.stateAt w.duration
          workerStillRunning := false
          returnTime := w.duration }

end Arkainbrain

namespace Arkainbrain

/-- C1: if the work unit is still running when the per-stage timeout elapses,
run_crew_with_timeout returns the timeout signal (None) without raising and
without terminating the worker thread, control returns at the timeout instant
(within timeout + ε, regardless of total runtime), and the caller sees exactly
the partial mutations the work had applied to shared state by the timeout. -/
theorem envelope_timeout_returns_none_and_abandons (σ α : Type) (stage : String)
    (w : CrewExec σ α) (h : stageTimeout stage < w.duration) :
    (run_crew_with_timeout stage w).retval = .ok none ∧
    (run_crew_with_timeout stage w).workerStillRunning = true ∧
    (run_crew_with_timeout stage w).callerState = w.stateAt (stageTimeout stage) ∧
    (run_crew_with_timeout stage w).returnTime = stageTimeout stage := by
  simp [run_crew_with_timeout, h]

theorem envelope_timeout_returns_none_and_abandons_witness :
    stageTimeout "research" < (900 * 60) ∧
    (run_crew_with_timeout "research"
      { duration := 900 * 60, outcome := .ok (some 7),
        stateAt := fun t => t : CrewExec Nat Nat }).retval = .ok none := by
  refine ⟨by decide, ?_⟩
  exact (envelope_timeout_returns_none_and_abandons Nat Nat "research"
    { duration := 900 * 60, outcome := .ok (some 7), stateAt := fun t => t }
    (by decide)).1

/-- C8: if the work unit finishes before the timeout, the envelope re-raises a
captured exception unchanged, and otherwise returns the work's result value. -/
theorem envelope_propagates_error_and_result (σ α : Type) (stage : String)
    (w : CrewExec σ α) (h : w.duration ≤ stageTimeout stage) :
    (∀ e : String, w.outcome = .error e →
      (run_crew_with_timeout stage w).retval = .error e) ∧
    (∀ r : Option α, w.outcome = .ok r →
      (run_crew_with_timeout stage w).retval = .ok r) := by
  constructor
  · intro e he
    simp [run_crew_with_timeout, Nat.not_lt.mpr h, he]
  · intro r hr
    simp [run_crew_with_timeout, Nat.not_lt.mpr h, hr]

theorem envelope_propagates_error_and_result_witness :
    (10 : Nat) ≤ stageTimeout "design" ∧
    (run_crew_with_timeout "design"
      { duration := 10, outcome := .error "boom",
        stateAt := fun _ => 0 : CrewExec Nat Nat }).retval = .error "boom" := by
  refine ⟨by decide, ?_⟩
  exact (envelope_propagates_error_and_result Nat Nat "design"
    { duration := 10, outcome := .error "boom", stateAt := fun _ => 0 }
    (by decide)).1 "boom" rfl

/-- Work unit that is still running when the research timeout (900 s) elapses. -/
def timedOutExec : CrewExec Nat Nat :=
  { duration := 5000, outcome := .ok (some 42), stateAt := fun t => t }

/-- Work unit that completes normally after 3 s with result None. -/
def quickNoneExec : CrewExec Nat Nat :=
  { duration := 3, outcome := .ok none, stateAt := fun t => t }

/-- C10: a timed-out execution and a normal completion whose result is None
return the identical value None from run_crew_with_timeout, so the timeout
signal is indistinguishable from a successful no-result completion at the
caller's interface (even though one leaves the worker thread running and the
other does not). -/
theorem envelope_timeout_indistinguishable_from_none :
    (run_crew_with_timeout "research" timedOutExec).retval = .ok none ∧
    (run_crew_with_timeout "research" quickNoneExec).retval = .ok none ∧
    (run_crew_with_timeout "research" timedOutExec).retval =
      (run_crew_with_timeout "research" quickNoneExec).retval ∧
    (run_crew_with_timeout "research" timedOutExec).workerStillRunning = true ∧
    (run_crew_with_timeout "research" quickNoneExec).workerStillRunning = false := by
  refine ⟨rfl, rfl, rfl, rfl, rfl⟩

end Arkainbrain

namespace Arkainbrain

/-! ## Job Lease & Recovery Store (web_app.py)

The jobs table: one row per job, single-row updates keyed by id.  Only the
fields the recovery sweep and the status lifecycle touch are modelled;
created_at is seconds since an arbitrary epoch. -/

inductive JobStatus
  | queued | running | complete | failed
  deriving DecidableEq, Repr

structure Job where
  id : String
  status : JobStatus
  createdAt : Int
  error : Option String
  deriving DecidableEq, Repr

/-- _recover_stale_jobs threshold: created_at < datetime('now','-75 minutes'). -/
def RECOVERY_STALENESS_MINUTES : Nat := 75

def staleThresholdSeconds : Int := (RECOVERY_STALENESS_MINUTES : Int) * 60

def staleErrorMsg : String := "Timed out — exceeded maximum pipeline duration"

/-- The per-row effect of the sweep's UPDATE: a running/queued job created
strictly more than 75 minutes ago is marked failed with the standard error;
any other row is left as it is. -/
def reapJob (now : Int) (j : Job) : Job :=
  if (j.status = .running ∨ j.status = .queued) ∧
      j.createdAt < now - staleThresholdSeconds then
    { j with status := .failed, error := some staleErrorMsg }
  else j

/-- _recover_stale_jobs: one startup sweep over the whole job store. -/
def recover_stale_jobs (now : Int) (jobs : List Job) : List Job :=
  jobs.map (reapJob now)

end Arkainbrain

namespace Arkainbrain

/-- C3: one invocation of the startup recovery sweep marks every job whose
status is running or queued and whose creation time is older than the
staleness threshold as failed with the 'exceeded maximum duration' error
(keeping its identity), and leaves every job younger than the threshold
untouched. -/
theorem recovery_sweep_marks_stale_failed (now : Int) (jobs : List Job)
    (i : Nat) (h : i < jobs.length) :
    ((jobs.get ⟨i, h⟩).status = .running ∨ (jobs.get ⟨i, h⟩).status = .queued) →
    (((jobs.get ⟨i, h⟩).createdAt < now - staleThresholdSeconds →
      (recover_stale_jobs now jobs).get ⟨i, by simpa [recover_stale_jobs] using h⟩ =
        { jobs.get ⟨i, h⟩ with status := .failed, error := some staleErrorMsg }) ∧
     (¬ (jobs.get ⟨i, h⟩).createdAt < now - staleThresholdSeconds →
      (recover_stale_jobs now jobs).get ⟨i, by simpa [recover_stale_jobs] using h⟩ =
        jobs.get ⟨i, h⟩)) := by
  intro hst
  constructor
  · intro hold
    simp only [recover_stale_jobs, List.get_eq_getElem, List.getElem_map]
    simp only [List.get_eq_getElem] at hst hold
    simp [reapJob, hst, hold]
  · intro hyoung
    simp only [recover_stale_jobs, List.get_eq_getElem, List.getElem_map]
    simp only [List.get_eq_getElem] at hst hyoung
    simp [reapJob, hyoung]

theorem recovery_sweep_marks_stale_failed_witness :
    (0 : Nat) < ([⟨"j1", .running, 0, none⟩] : List Job).length ∧
    (([⟨"j1", .running, 0, none⟩] : List Job).get ⟨0, by decide⟩).status = .running ∧
    (recover_stale_jobs 10000 [⟨"j1", .running, 0, none⟩]).get ⟨0, by decide⟩ =
      ⟨"j1", .failed, 0, some staleErrorMsg⟩ := by
  refine ⟨by decide, rfl, ?_⟩
  have := (recovery_sweep_marks_stale_failed 10000 [⟨"j1", .running, 0, none⟩]
    0 (by decide) (Or.inl rfl)).1 (by decide)
  simpa using this

/-- C4 (code bug): the fixed staleness threshold of the recovery sweep,
75 minutes = 4500 seconds, is NOT strictly larger than the sum of the default
per-stage timeouts, which is 4800 seconds (80 minutes) — so a job still
legitimately inside its stage-timeout budget can be reaped.  The sweep's own
comment assumes a 1-hour pipeline budget, contradicted by STAGE_TIMEOUTS. -/
theorem staleness_threshold_below_timeout_sum :
    sumStageTimeouts = 4800 ∧
    staleThresholdSeconds = 4500 ∧
    staleThresholdSeconds < (sumStageTimeouts : Int) := by
  refine ⟨by decide, by decide, by decide⟩

end Arkainbrain

namespace Arkainbrain

/-! ## Pipeline State (flows/pipeline.py, class PipelineState)

The single mutable aggregate threaded through every stage of one job.  Stage
result documents are abstract (String); hitl_approvals is kept as the ordered
log of writes to the Python dict, so "recorded exactly once" is visible. -/

structure GameIdea where
  theme : String
  /-- the serialized remaining input parameters (model_dump of the rest) -/
  params : String
  deriving DecidableEq, Repr

structure PipelineState where
  job_id : String := ""
  game_idea : GameIdea := ⟨"", ""⟩
  game_slug : String := ""
  output_dir : String := ""
  trend_radar : Option String := none
  jurisdiction_constraints : Option String := none
  market_research : Option String := none
  research_approved : Bool := false
  gdd : Option String := none
  math_model : Option String := none
  design_math_approved : Bool := false
  mood_board : Option String := none
  mood_board_approved : Bool := false
  art_assets : Option String := none
  compliance : Option String := none
  patent_scan : Option String := none
  sound_design : Option String := none
  prototype_path : String := ""
  certification_plan : Option String := none
  total_tokens_used : Nat := 0
  /-- estimated_cost_usd, scaled to integral cents (the embedded paths only
      copy this value around, never compute with it) -/
  estimated_cost_usd_cents : Nat := 0
  errors : List String := []
  hitl_approvals : List (String × Bool) := []
  started_at : Option String := none
  completed_at : Option String := none
  pdf_files : List String := []
  deriving DecidableEq, Repr

/-! ## Checkpoint Gate (flows/pipeline.py, hitl_checkpoint) -/

/-- The external decision environment one hitl_checkpoint call can consult:
the web channel resolution (none models web_hitl_checkpoint raising, which
falls back to the CLI), and the CLI prompt's (Confirm.ask, Prompt.ask) pair. -/
structure HitlDecision where
  web : Option (Bool × String)
  cli : Bool × String
  deriving DecidableEq, Repr

/-- Python str.lower, per character (the 'skip' sentinel comparison only
involves ASCII). -/
def pyLower (s : String) : String := String.mk (s.data.map Char.toLower)

/-- The error-log entry a rejection appends: f-string
"HITL rejection at {name}: {feedback}". -/
def hitlRejectMsg (name feedback : String) : String :=
  s!"HITL rejection at {name}: {feedback}"

/-- The CLI fallback branch of hitl_checkpoint: record the yes/no answer,
and on rejection append the feedback to state.errors unless it is the
'skip' sentinel. -/
def hitlCliPath (name : String) (st : PipelineState) (ans : Bool × String) :
    Bool × PipelineState :=
  let approved := ans.1
  let st1 := { st with hitl_approvals := st.hitl_approvals ++ [(name, approved)] }
  if approved then (true, st1)
  else if pyLower ans.2 ≠ "skip" then
    (false, { st1 with errors := st1.errors ++ [hitlRejectMsg name ans.2] })
  else (false, st1)

/-- hitl_checkpoint: auto-approve when auto=True or HITL is disabled;
otherwise use the web channel when the state carries a job id (falling back
to the CLI when that channel raises), else the CLI prompt.  The summary and
artifact list only feed the displays, not the recorded outcome. -/
def hitl_checkpoint (name : String) (st : PipelineState)
    (auto hitlEnabled : Bool) (d : HitlDecision) : Bool × PipelineState :=
  if auto || !hitlEnabled then
    (true, { st with hitl_approvals := st.hitl_approvals ++ [(name, true)] })
  else if st.job_id ≠ "" then
    match d.web with
    | some (approved, feedback) =>
        let st1 := { st with hitl_approvals := st.hitl_approvals ++ [(name, approved)] }
        let st2 :=
          if approved = false ∧ feedback ≠ "" then
            { st1 with errors := st1.errors ++ [hitlRejectMsg name feedback] }
          else st1
        (approved, st2)
    | none => hitlCliPath name st d.cli
  else hitlCliPath name st d.cli

end Arkainbrain

namespace Arkainbrain

/-- C7: in auto mode (auto flag set, or HITL globally disabled),
hitl_checkpoint returns True, records True in the approvals map under the
checkpoint name exactly once, touches nothing else in the state, and does not
consult the remote channel or the interactive prompt at all (the outcome is
independent of the decision environment). -/
theorem hitl_auto_mode_approves_once (name : String) (st : PipelineState)
    (auto hitlEnabled : Bool) (d : HitlDecision)
    (h : auto = true ∨ hitlEnabled = false) :
    (hitl_checkpoint name st auto hitlEnabled d).1 = true ∧
    (hitl_checkpoint name st auto hitlEnabled d).2 =
      { st with hitl_approvals := st.hitl_approvals ++ [(name, true)] } ∧
    (∀ d2 : HitlDecision,
      hitl_checkpoint name st auto hitlEnabled d2 =
        hitl_checkpoint name st auto hitlEnabled d) := by
  rcases h with h | h <;> subst h <;>
    simp [hitl_checkpoint]

theorem hitl_auto_mode_approves_once_witness :
    ((true : Bool) = true ∨ (true : Bool) = false) ∧
    (hitl_checkpoint "post_research" {} true true ⟨none, (false, "no")⟩).1 = true ∧
    (hitl_checkpoint "post_research" {} true true ⟨none, (false, "no")⟩).2.hitl_approvals =
      [("post_research", true)] := by
  refine ⟨Or.inl rfl, ?_, ?_⟩
  · exact (hitl_auto_mode_approves_once "post_research" {} true true
      ⟨none, (false, "no")⟩ (Or.inl rfl)).1
  · have h2 := (hitl_auto_mode_approves_once "post_research" {} true true
      ⟨none, (false, "no")⟩ (Or.inl rfl)).2.1
    rw [h2]
    rfl

end Arkainbrain

namespace Arkainbrain

/-! ## Pipeline Flow (flows/pipeline.py, class SlotStudioFlow)

The linear stage graph from preflight to assembly.  Each content-producing
stage invokes its crew through the Stage Invocation Envelope; here the
envelope's observable outcome per stage is supplied by the environment:
.error e when run_crew_with_timeout re-raises e (a stage exception, fatal to
the job), .ok () when it returns — a result or the timeout signal — in which
case the stage proceeds to collect the task outputs and stage files exactly
as the code does.  The stage documents those collections produce are likewise
environment-supplied abstract strings. -/

structure CostSummary where
  total_tokens : Nat
  estimated_cost_usd_cents : Nat
  deriving DecidableEq, Repr

structure FlowConfig where
  /-- SlotStudioFlow auto_mode constructor flag -/
  auto_mode : Bool
  /-- PipelineConfig.HITL_ENABLED -/
  hitlEnabled : Bool
  deriving DecidableEq, Repr

structure FlowEnv where
  researchCrew : Except String Unit
  designCrew : Except String Unit
  moodCrew : Except String Unit
  productionCrew : Except String Unit
  /-- preflight sub-step A (trend radar): none models its try/except
      swallowing an exception, leaving the field unwritten -/
  trendRadar : Option String
  /-- preflight sub-step B: jurisdiction document plus its blocker list,
      which run_preflight extends state.errors with -/
  jurisdiction : Option (String × List String)
  /-- preflight sub-step D (patent scan), best-effort -/
  patentScan : Option String
  marketDoc : String
  gddDoc : String
  mathDoc : String
  moodDoc : String
  artDoc : String
  compDoc : String
  /-- audio brief / generated sound files summary, if any were produced -/
  soundDoc : Option String
  certPlan : Option String
  /-- HTML5 prototype path, none when generation failed (swallowed) -/
  protoPath : Option String
  /-- generate_full_package: file list, or the swallowed exception text -/
  pdfOutcome : Except String (List String)
  /-- output_path.rglob("*") file listing at assembly time -/
  allFiles : List String
  /-- cost_tracker.summary() at assembly time -/
  cost : CostSummary
  /-- datetime.now() at assembly time -/
  nowEnd : String
  dResearch : HitlDecision
  dDesign : HitlDecision
  dArt : HitlDecision
  deriving Repr

/-- The completion manifest written to PACKAGE_MANIFEST.json (the fields that
concern the executor; llm_routing and image/file counters are derived
display data and are omitted). -/
structure Manifest where
  game_title : String
  input_parameters : String
  preflight_trend_radar : Bool
  preflight_jurisdiction : Bool
  tier2_patent_scan : Bool
  tier2_sound_design : Bool
  tier2_prototype : Bool
  tier2_certification_plan : Bool
  cost : CostSummary
  files_generated : List String
  pdf_files : List String
  hitl_approvals : List (String × Bool)
  errors : List String
  started_at : Option String
  completed_at : String
  deriving DecidableEq, Repr

/-- run_preflight: four best-effort sub-steps, each in its own try/except;
jurisdiction blockers are appended to state.errors. -/
def run_preflight (env : FlowEnv) (st : PipelineState) : PipelineState :=
  let st := match env.trendRadar with
    | some doc => { st with trend_radar := some doc }
    | none => st
  let st := match env.jurisdiction with
    | some (doc, blockers) =>
        { st with jurisdiction_constraints := some doc,
                  errors := st.errors ++ blockers }
    | none => st
  match env.patentScan with
  | some doc => { st with patent_scan := some doc }
  | none => st

/-- run_research: enveloped crew, then market_research is assembled from the
task outputs / report file regardless of the envelope's timeout signal. -/
def run_research (env : FlowEnv) (st : PipelineState) : Except String PipelineState :=
  match env.researchCrew with
  | .error e => .error e
  | .ok _ => .ok { st with market_research := some env.marketDoc }

/-- checkpoint_research: adversarial review (best-effort, writes only a
review file), then the HITL gate sets research_approved. -/
def checkpoint_research (cfg : FlowConfig) (env : FlowEnv) (st : PipelineState) :
    PipelineState :=
  let r := hitl_checkpoint "post_research" st cfg.auto_mode cfg.hitlEnabled env.dResearch
  { r.2 with research_approved := r.1 }

/-- run_design_and_math: returns immediately unless research was approved. -/
def run_design_and_math (env : FlowEnv) (st : PipelineState) :
    Except String PipelineState :=
  if st.research_approved = false then .ok st
  else match env.designCrew with
    | .error e => .error e
    | .ok _ => .ok { st with gdd := some env.gddDoc, math_model := some env.mathDoc }

/-- checkpoint_design: gated on research_approved; sets design_math_approved. -/
def checkpoint_design (cfg : FlowConfig) (env : FlowEnv) (st : PipelineState) :
    PipelineState :=
  if st.research_approved = false then st
  else
    let r := hitl_checkpoint "post_design_math" st cfg.auto_mode cfg.hitlEnabled env.dDesign
    { r.2 with design_math_approved := r.1 }

/-- run_mood_boards: gated on design_math_approved. -/
def run_mood_boards (env : FlowEnv) (st : PipelineState) :
    Except String PipelineState :=
  if st.design_math_approved = false then .ok st
  else match env.moodCrew with
    | .error e => .error e
    | .ok _ => .ok { st with mood_board := some env.moodDoc }

/-- checkpoint_art: gated on design_math_approved; sets mood_board_approved. -/
def checkpoint_art (cfg : FlowConfig) (env : FlowEnv) (st : PipelineState) :
    PipelineState :=
  if st.design_math_approved = false then st
  else
    let r := hitl_checkpoint "post_art_review" st cfg.auto_mode cfg.hitlEnabled env.dArt
    { r.2 with mood_board_approved := r.1 }

/-- run_production: gated on mood_board_approved; writes art, compliance and
the best-effort audio / certification results. -/
def run_production (env : FlowEnv) (st : PipelineState) :
    Except String PipelineState :=
  if st.mood_board_approved = false then .ok st
  else match env.productionCrew with
    | .error e => .error e
    | .ok _ => .ok { st with
        art_assets := some env.artDoc
        compliance := some env.compDoc
        sound_design := match env.soundDoc with
          | some d => some d
          | none => st.sound_design
        certification_plan := match env.certPlan with
          | some c => some c
          | none => st.certification_plan }

/-- The manifest dict as assemble_package builds it from the state at
assembly time plus the cost summary, file listing and timestamp. -/
def mkManifest (env : FlowEnv) (st : PipelineState) : Manifest :=
  { game_title := st.game_idea.theme
    input_parameters := st.game_idea.params
    preflight_trend_radar := st.trend_radar.isSome
    preflight_jurisdiction := st.jurisdiction_constraints.isSome
    tier2_patent_scan := st.patent_scan.isSome
    tier2_sound_design := st.sound_design.isSome
    tier2_prototype := st.prototype_path != ""
    tier2_certification_plan := st.certification_plan.isSome
    cost := env.cost
    files_generated := env.allFiles
    pdf_files := st.pdf_files
    hitl_approvals := st.hitl_approvals
    errors := st.errors
    started_at := st.started_at
    completed_at := env.nowEnd }

/-- The swallowed PDF-generation failure entry: "PDF generation failed: {e}". -/
def pdfFailMsg (e : String) : String :=
  s!"PDF generation failed: {e}"

/-- assemble_package: gated on mood_board_approved (returning early writes no
manifest).  Prototype and PDF generation failures are swallowed (the PDF
failure is logged into state.errors); the manifest is built and written, then
completion metadata is copied into the state.  The second component of the
result is the PACKAGE_MANIFEST.json written to the output directory. -/
def assemble_package (env : FlowEnv) (st : PipelineState) :
    PipelineState × Option Manifest :=
  if st.mood_board_approved = false then (st, none)
  else
    let st := match env.protoPath with
      | some p => { st with prototype_path := p }
      | none => st
    let st := match env.pdfOutcome with
      | .ok files => { st with pdf_files := files }
      | .error e => { st with errors := st.errors ++ [pdfFailMsg e] }
    let m := mkManifest env st
    ({ st with
        completed_at := some env.nowEnd
        total_tokens_used := env.cost.total_tokens
        estimated_cost_usd_cents := env.cost.estimated_cost_usd_cents },
     some m)

/-- The tail of the listen-chain from run_mood_boards onward: mood boards,
the art checkpoint, production, assembly.  Stage exceptions propagate through
Except; the manifest file (if any) rides alongside the final state. -/
def flowFromMood (cfg : FlowConfig) (env : FlowEnv) (st : PipelineState) :
    Except String (PipelineState × Option Manifest) :=
  (run_mood_boards env st).bind fun st =>
  (run_production env (checkpoint_art cfg env st)).map fun st =>
  assemble_package env st

/-- The tail of the listen-chain from run_design_and_math onward. -/
def flowFromDesign (cfg : FlowConfig) (env : FlowEnv) (st : PipelineState) :
    Except String (PipelineState × Option Manifest) :=
  (run_design_and_math env st).bind fun st =>
  flowFromMood cfg env (checkpoint_design cfg env st)

/-- One run of the flow: initialize/preflight, then the stage chain.  (The
slug/output-dir computation of the initialize stage is modelled separately
below; it feeds no gate.) -/
def runFlow (cfg : FlowConfig) (env : FlowEnv) (st0 : PipelineState) :
    Except String (PipelineState × Option Manifest) :=
  (run_research env (run_preflight env st0)).bind fun st =>
  flowFromDesign cfg env (checkpoint_research cfg env st)

/-- Modelled from the spec: the worker that drives one job (worker.py, which
is not under src/) marks the job failed when a stage exception propagates out
of the flow and complete when the flow returns, per §7: "a job's terminal
status is failed only for taxonomy (b) [stage exception] at the top level;
everything else results in complete". -/
def workerTerminalStatus (r : Except String (PipelineState × Option Manifest)) :
    JobStatus :=
  match r with
  | .ok _ => .complete
  | .error _ => .failed

end Arkainbrain

namespace Arkainbrain

/-! ## Helper lemmas about the flow -/

theorem run_preflight_job_id (env : FlowEnv) (st : PipelineState) :
    (run_preflight env st).job_id = st.job_id := by
  unfold run_preflight
  rcases env.trendRadar with _ | tr <;>
    rcases env.jurisdiction with _ | ⟨jd, bl⟩ <;>
    rcases env.patentScan with _ | ps <;> rfl

theorem run_preflight_design_flag (env : FlowEnv) (st : PipelineState) :
    (run_preflight env st).design_math_approved = st.design_math_approved := by
  unfold run_preflight
  rcases env.trendRadar with _ | tr <;>
    rcases env.jurisdiction with _ | ⟨jd, bl⟩ <;>
    rcases env.patentScan with _ | ps <;> rfl

theorem run_preflight_mood_flag (env : FlowEnv) (st : PipelineState) :
    (run_preflight env st).mood_board_approved = st.mood_board_approved := by
  unfold run_preflight
  rcases env.trendRadar with _ | tr <;>
    rcases env.jurisdiction with _ | ⟨jd, bl⟩ <;>
    rcases env.patentScan with _ | ps <;> rfl

theorem run_preflight_gdd (env : FlowEnv) (st : PipelineState) :
    (run_preflight env st).gdd = st.gdd := by
  unfold run_preflight
  rcases env.trendRadar with _ | tr <;>
    rcases env.jurisdiction with _ | ⟨jd, bl⟩ <;>
    rcases env.patentScan with _ | ps <;> rfl

theorem run_preflight_math_model (env : FlowEnv) (st : PipelineState) :
    (run_preflight env st).math_model = st.math_model := by
  unfold run_preflight
  rcases env.trendRadar with _ | tr <;>
    rcases env.jurisdiction with _ | ⟨jd, bl⟩ <;>
    rcases env.patentScan with _ | ps <;> rfl

theorem run_preflight_mood_board (env : FlowEnv) (st : PipelineState) :
    (run_preflight env st).mood_board = st.mood_board := by
  unfold run_preflight
  rcases env.trendRadar with _ | tr <;>
    rcases env.jurisdiction with _ | ⟨jd, bl⟩ <;>
    rcases env.patentScan with _ | ps <;> rfl

theorem run_preflight_art_assets (env : FlowEnv) (st : PipelineState) :
    (run_preflight env st).art_assets = st.art_assets := by
  unfold run_preflight
  rcases env.trendRadar with _ | tr <;>
    rcases env.jurisdiction with _ | ⟨jd, bl⟩ <;>
    rcases env.patentScan with _ | ps <;> rfl

theorem run_preflight_compliance (env : FlowEnv) (st : PipelineState) :
    (run_preflight env st).compliance = st.compliance := by
  unfold run_preflight
  rcases env.trendRadar with _ | tr <;>
    rcases env.jurisdiction with _ | ⟨jd, bl⟩ <;>
    rcases env.patentScan with _ | ps <;> rfl

theorem run_preflight_errors (env : FlowEnv) (st : PipelineState) :
    ∃ B : List String, (run_preflight env st).errors = st.errors ++ B := by
  unfold run_preflight
  rcases env.trendRadar with _ | tr <;>
    rcases env.jurisdiction with _ | ⟨jd, bl⟩ <;>
    rcases env.patentScan with _ | ps
  all_goals first
    | exact ⟨bl, by simp⟩
    | exact ⟨[], by simp⟩

/-- Once research is unapproved and the downstream approval flags are still
false, the rest of the flow is a chain of no-ops ending without a manifest. -/
theorem flowFromMood_skip (cfg : FlowConfig) (env : FlowEnv) (st : PipelineState)
    (h2 : st.design_math_approved = false) (h3 : st.mood_board_approved = false) :
    flowFromMood cfg env st = .ok (st, none) := by
  unfold flowFromMood run_mood_boards checkpoint_art run_production assemble_package
  simp [h2, h3, Except.bind, Except.map]

theorem flowFromDesign_skip (cfg : FlowConfig) (env : FlowEnv) (st : PipelineState)
    (h1 : st.research_approved = false)
    (h2 : st.design_math_approved = false) (h3 : st.mood_board_approved = false) :
    flowFromDesign cfg env st = .ok (st, none) := by
  unfold flowFromDesign run_design_and_math checkpoint_design
  simp only [h1, reduceIte, Except.bind]
  exact flowFromMood_skip cfg env st h2 h3

end Arkainbrain

namespace Arkainbrain

/-- What an approval outcome looks like to one checkpoint invocation:
the web channel resolves approved (when the job has an id), or the CLI
prompt answers yes (directly, or as a fallback after a channel failure). -/
def approvesFor (jobId : String) (d : HitlDecision) : Prop :=
  if jobId = "" then d.cli.1 = true
  else (∃ fb, d.web = some (true, fb)) ∨ (d.web = none ∧ d.cli.1 = true)

/-- A rejection carrying recordable feedback F: the web channel resolves
rejected with non-empty feedback, or the CLI prompt answers no with feedback
other than the case-insensitive 'skip' sentinel. -/
def rejectedWith (jobId : String) (d : HitlDecision) (F : String) : Prop :=
  if jobId = "" then d.cli = (false, F) ∧ pyLower F ≠ "skip"
  else (d.web = some (false, F) ∧ F ≠ "") ∨
       (d.web = none ∧ d.cli = (false, F) ∧ pyLower F ≠ "skip")

theorem hitl_checkpoint_approved (name : String) (st : PipelineState)
    (d : HitlDecision) (h : approvesFor st.job_id d) :
    hitl_checkpoint name st false true d =
      (true, { st with hitl_approvals := st.hitl_approvals ++ [(name, true)] }) := by
  unfold approvesFor at h
  by_cases hj : st.job_id = ""
  · rw [if_pos hj] at h
    simp [hitl_checkpoint, hj, hitlCliPath, h]
  · rw [if_neg hj] at h
    rcases h with ⟨fb, hw⟩ | ⟨hw, hc⟩
    · simp [hitl_checkpoint, hj, hw]
    · simp [hitl_checkpoint, hj, hw, hitlCliPath, hc]

theorem hitl_checkpoint_rejected (name : String) (st : PipelineState)
    (d : HitlDecision) (F : String) (h : rejectedWith st.job_id d F) :
    hitl_checkpoint name st false true d =
      (false, { st with
          errors := st.errors ++ [hitlRejectMsg name F],
          hitl_approvals := st.hitl_approvals ++ [(name, false)] }) := by
  unfold rejectedWith at h
  by_cases hj : st.job_id = ""
  · rw [if_pos hj] at h
    obtain ⟨hc, hskip⟩ := h
    simp [hitl_checkpoint, hj, hitlCliPath, hc, hskip]
  · rw [if_neg hj] at h
    rcases h with ⟨hw, hF⟩ | ⟨hw, hc, hskip⟩
    · simp [hitl_checkpoint, hj, hw, hF]
    · simp [hitl_checkpoint, hj, hw, hitlCliPath, hc, hskip]

/-- The three HITL gates of the flow. -/
inductive Gate
  | research | designMath | artReview
  deriving DecidableEq, Repr

def Gate.cpName : Gate → String
  | .research => "post_research"
  | .designMath => "post_design_math"
  | .artReview => "post_art_review"

def Gate.decision (g : Gate) (env : FlowEnv) : HitlDecision :=
  match g with
  | .research => env.dResearch
  | .designMath => env.dDesign
  | .artReview => env.dArt

/-- All gates before g approve. -/
def Gate.priorApproved (g : Gate) (jobId : String) (env : FlowEnv) : Prop :=
  match g with
  | .research => True
  | .designMath => approvesFor jobId env.dResearch
  | .artReview => approvesFor jobId env.dResearch ∧ approvesFor jobId env.dDesign

/-- The designated result fields of the stages gated behind g are unchanged. -/
def Gate.downstreamUntouched (g : Gate) (st0 st : PipelineState) : Prop :=
  match g with
  | .research =>
      st.gdd = st0.gdd ∧ st.math_model = st0.math_model ∧
      st.mood_board = st0.mood_board ∧ st.art_assets = st0.art_assets ∧
      st.compliance = st0.compliance
  | .designMath =>
      st.mood_board = st0.mood_board ∧ st.art_assets = st0.art_assets ∧
      st.compliance = st0.compliance
  | .artReview =>
      st.art_assets = st0.art_assets ∧ st.compliance = st0.compliance

/-- A run ended without a stage exception and its final state and manifest
file satisfy P. -/
def RunSat (r : Except String (PipelineState × Option Manifest))
    (P : PipelineState → Option Manifest → Prop) : Prop :=
  match r with
  | .ok (st, m) => P st m
  | .error _ => False

end Arkainbrain

namespace Arkainbrain

/-- C2 (amended): for any checkpoint rejected with recordable feedback F —
non-empty over the web channel, or other than the 'skip' sentinel at the CLI
prompt — while all earlier gates approved and no crew raises, the run ends
without an exception (so the job finishes in complete status), state.errors
gains the entry referencing F, every stage gated behind that checkpoint
returns immediately without mutating its designated state fields, and no
manifest is written (the artifact set is incomplete). -/
theorem checkpoint_rejection_silently_truncates
    (cfg : FlowConfig) (env : FlowEnv) (st0 : PipelineState) (g : Gate) (F : String)
    (hauto : cfg.auto_mode = false) (hen : cfg.hitlEnabled = true)
    (hdm0 : st0.design_math_approved = false)
    (hmb0 : st0.mood_board_approved = false)
    (hres : env.researchCrew = .ok ()) (hdes : env.designCrew = .ok ())
    (hmood : env.moodCrew = .ok ())
    (hprior : g.priorApproved st0.job_id env)
    (hrej : rejectedWith st0.job_id (g.decision env) F) :
    RunSat (runFlow cfg env st0) (fun st m =>
      m = none ∧
      hitlRejectMsg g.cpName F ∈ st.errors ∧
      g.downstreamUntouched st0 st) ∧
    workerTerminalStatus (runFlow cfg env st0) = .complete := by
  cases g with
  | research =>
    simp only [Gate.decision] at hrej
    unfold rejectedWith at hrej
    by_cases hjob : st0.job_id = ""
    · rw [if_pos hjob] at hrej
      obtain ⟨hc, hskip⟩ := hrej
      simp [runFlow, run_research, hres, Except.bind, checkpoint_research,
        hauto, hen, hitl_checkpoint, hitlCliPath, hjob, hc, hskip,
        run_preflight_job_id, run_preflight_design_flag, run_preflight_mood_flag,
        hdm0, hmb0, RunSat, workerTerminalStatus, Gate.cpName,
        Gate.downstreamUntouched, run_preflight_gdd, run_preflight_math_model,
        run_preflight_mood_board, run_preflight_art_assets,
        run_preflight_compliance, flowFromDesign_skip, flowFromMood_skip]
    · rw [if_neg hjob] at hrej
      rcases hrej with ⟨hw, hF⟩ | ⟨hw, hc, hskip⟩
      · simp [runFlow, run_research, hres, Except.bind, checkpoint_research,
          hauto, hen, hitl_checkpoint, hitlCliPath, hjob, hw, hF,
          run_preflight_job_id, run_preflight_design_flag, run_preflight_mood_flag,
          hdm0, hmb0, RunSat, workerTerminalStatus, Gate.cpName,
          Gate.downstreamUntouched, run_preflight_gdd, run_preflight_math_model,
          run_preflight_mood_board, run_preflight_art_assets,
          run_preflight_compliance, flowFromDesign_skip, flowFromMood_skip]
      · simp [runFlow, run_research, hres, Except.bind, checkpoint_research,
          hauto, hen, hitl_checkpoint, hitlCliPath, hjob, hw, hc, hskip,
          run_preflight_job_id, run_preflight_design_flag, run_preflight_mood_flag,
          hdm0, hmb0, RunSat, workerTerminalStatus, Gate.cpName,
          Gate.downstreamUntouched, run_preflight_gdd, run_preflight_math_model,
          run_preflight_mood_board, run_preflight_art_assets,
          run_preflight_compliance, flowFromDesign_skip, flowFromMood_skip]
  | designMath =>
    simp only [Gate.decision] at hrej
    simp only [Gate.priorApproved] at hprior
    unfold rejectedWith at hrej
    unfold approvesFor at hprior
    by_cases hjob : st0.job_id = ""
    · rw [if_pos hjob] at hrej hprior
      obtain ⟨hc, hskip⟩ := hrej
      simp [runFlow, flowFromDesign, run_research, hres, Except.bind,
        checkpoint_research, run_design_and_math, hdes, checkpoint_design,
        hauto, hen, hitl_checkpoint, hitlCliPath, hjob, hc, hskip, hprior,
        run_preflight_job_id, run_preflight_design_flag, run_preflight_mood_flag,
        hdm0, hmb0, RunSat, workerTerminalStatus, Gate.cpName,
        Gate.downstreamUntouched, run_preflight_mood_board,
        run_preflight_art_assets, run_preflight_compliance, flowFromMood_skip]
    · rw [if_neg hjob] at hrej hprior
      rcases hprior with ⟨fb1, hw1⟩ | ⟨hw1, hc1⟩ <;>
        rcases hrej with ⟨hw2, hF⟩ | ⟨hw2, hc2, hskip⟩ <;>
        simp [runFlow, flowFromDesign, run_research, hres, Except.bind,
          checkpoint_research, run_design_and_math, hdes, checkpoint_design,
          hauto, hen, hitl_checkpoint, hitlCliPath, hjob, hw1, hw2,
          run_preflight_job_id, run_preflight_design_flag, run_preflight_mood_flag,
          hdm0, hmb0, RunSat, workerTerminalStatus, Gate.cpName,
          Gate.downstreamUntouched, run_preflight_mood_board,
          run_preflight_art_assets, run_preflight_compliance, flowFromMood_skip] <;>
        simp_all [runFlow, flowFromDesign, run_research, Except.bind,
          checkpoint_research, run_design_and_math, checkpoint_design,
          hitl_checkpoint, hitlCliPath,
          run_preflight_job_id, run_preflight_design_flag, run_preflight_mood_flag,
          RunSat, workerTerminalStatus, Gate.cpName,
          Gate.downstreamUntouched, run_preflight_mood_board,
          run_preflight_art_assets, run_preflight_compliance, flowFromMood_skip]
  | artReview =>
    simp only [Gate.decision] at hrej
    simp only [Gate.priorApproved] at hprior
    obtain ⟨hpr1, hpr2⟩ := hprior
    unfold rejectedWith at hrej
    unfold approvesFor at hpr1 hpr2
    by_cases hjob : st0.job_id = ""
    · rw [if_pos hjob] at hrej hpr1 hpr2
      obtain ⟨hc, hskip⟩ := hrej
      simp [runFlow, flowFromDesign, flowFromMood, run_research, hres,
        Except.bind, Except.map, checkpoint_research, run_design_and_math, hdes,
        checkpoint_design, run_mood_boards, hmood, checkpoint_art,
        run_production, assemble_package,
        hauto, hen, hitl_checkpoint, hitlCliPath, hjob, hc, hskip, hpr1, hpr2,
        run_preflight_job_id, run_preflight_design_flag, run_preflight_mood_flag,
        hdm0, hmb0, RunSat, workerTerminalStatus, Gate.cpName,
        Gate.downstreamUntouched, run_preflight_art_assets,
        run_preflight_compliance]
    · rw [if_neg hjob] at hrej hpr1 hpr2
      rcases hpr1 with ⟨fb1, hw1⟩ | ⟨hw1, hc1⟩ <;>
        rcases hpr2 with ⟨fb2, hw2⟩ | ⟨hw2, hc2⟩ <;>
        rcases hrej with ⟨hw3, hF⟩ | ⟨hw3, hc3, hskip⟩ <;>
        simp [runFlow, flowFromDesign, flowFromMood, run_research, hres,
          Except.bind, Except.map, checkpoint_research, run_design_and_math, hdes,
          checkpoint_design, run_mood_boards, hmood, checkpoint_art,
          run_production, assemble_package,
          hauto, hen, hitl_checkpoint, hitlCliPath, hjob, hw1, hw2, hw3,
          run_preflight_job_id, run_preflight_design_flag, run_preflight_mood_flag,
          hdm0, hmb0, RunSat, workerTerminalStatus, Gate.cpName,
          Gate.downstreamUntouched, run_preflight_art_assets,
          run_preflight_compliance] <;>
        simp_all [runFlow, flowFromDesign, flowFromMood, run_research,
          Except.bind, Except.map, checkpoint_research, run_design_and_math,
          checkpoint_design, run_mood_boards, checkpoint_art,
          run_production, assemble_package, hitl_checkpoint, hitlCliPath,
          run_preflight_job_id, run_preflight_design_flag, run_preflight_mood_flag,
          RunSat, workerTerminalStatus, Gate.cpName,
          Gate.downstreamUntouched, run_preflight_art_assets,
          run_preflight_compliance]

end Arkainbrain

namespace Arkainbrain

theorem mkManifest_final (env : FlowEnv) (st : PipelineState) :
    mkManifest env { st with
      completed_at := some env.nowEnd
      total_tokens_used := env.cost.total_tokens
      estimated_cost_usd_cents := env.cost.estimated_cost_usd_cents } =
    mkManifest env st := by
  simp [mkManifest]

theorem assemble_package_approved (env : FlowEnv) (st : PipelineState)
    (h : st.mood_board_approved = true) :
    (assemble_package env st).2 =
      some (mkManifest env (assemble_package env st).1) ∧
    (assemble_package env st).1.mood_board_approved = true := by
  unfold assemble_package
  rcases hpp : env.protoPath with _ | p <;> rcases hpd : env.pdfOutcome with e | fl <;>
    simp [h, mkManifest]

theorem runsat_imp (r : Except String (PipelineState × Option Manifest))
    (P Q : PipelineState → Option Manifest → Prop)
    (h : ∀ st m, P st m → Q st m) : RunSat r P → RunSat r Q := by
  unfold RunSat
  match r with
  | .ok (st, m) => exact h st m
  | .error e => exact id

theorem runsat_complete (r : Except String (PipelineState × Option Manifest))
    (P : PipelineState → Option Manifest → Prop) :
    RunSat r P → workerTerminalStatus r = .complete := by
  unfold RunSat workerTerminalStatus
  match r with
  | .ok (st, m) => exact fun _ => rfl
  | .error e => exact False.elim

theorem assemble_runsat (env : FlowEnv) (s : PipelineState)
    (hs : s.mood_board_approved = true) :
    RunSat (.ok (assemble_package env s)) (fun st2 m =>
      (st2.mood_board_approved = true → m = some (mkManifest env st2)) ∧
      (st2.mood_board_approved = false → m = none)) := by
  have hap := assemble_package_approved env s hs
  rcases hA : assemble_package env s with ⟨st2, m2⟩
  rw [hA] at hap
  have h1 : m2 = some (mkManifest env st2) := hap.1
  have h2 : st2.mood_board_approved = true := hap.2
  exact ⟨fun _ => h1, fun hc => by rw [h2] at hc; cases hc⟩

theorem production_assemble_manifest (env : FlowEnv) (stA : PipelineState)
    (hp : env.productionCrew = .ok ()) :
    RunSat ((run_production env stA).map fun s => assemble_package env s)
      (fun st2 m =>
        (st2.mood_board_approved = true → m = some (mkManifest env st2)) ∧
        (st2.mood_board_approved = false → m = none)) := by
  by_cases hmb : stA.mood_board_approved = false
  · simp [run_production, hmb, Except.map, assemble_package, RunSat]
  · have hmb2 : stA.mood_board_approved = true := by
      cases hv : stA.mood_board_approved
      · exact absurd hv hmb
      · rfl
    simp only [run_production, hmb2, hp, Bool.true_eq_false, reduceIte,
      Except.map]
    exact assemble_runsat env _ rfl

theorem flowFromMood_manifest (cfg : FlowConfig) (env : FlowEnv)
    (st : PipelineState)
    (hm : env.moodCrew = .ok ()) (hp : env.productionCrew = .ok ()) :
    RunSat (flowFromMood cfg env st) (fun st2 m =>
      (st2.mood_board_approved = true → m = some (mkManifest env st2)) ∧
      (st2.mood_board_approved = false → m = none)) := by
  unfold flowFromMood
  by_cases hd : st.design_math_approved = false
  · simp only [run_mood_boards, hd, reduceIte, Except.bind, checkpoint_art]
    exact production_assemble_manifest env st hp
  · have hd2 : st.design_math_approved = true := by
      cases hv : st.design_math_approved
      · exact absurd hv hd
      · rfl
    simp only [run_mood_boards, hd2, hm, Bool.true_eq_false, reduceIte,
      Except.bind, checkpoint_art]
    exact production_assemble_manifest env _ hp

theorem flowFromDesign_manifest (cfg : FlowConfig) (env : FlowEnv)
    (st : PipelineState)
    (hd : env.designCrew = .ok ())
    (hm : env.moodCrew = .ok ()) (hp : env.productionCrew = .ok ()) :
    RunSat (flowFromDesign cfg env st) (fun st2 m =>
      (st2.mood_board_approved = true → m = some (mkManifest env st2)) ∧
      (st2.mood_board_approved = false → m = none)) := by
  unfold flowFromDesign
  by_cases h1 : st.research_approved = false
  · simp only [run_design_and_math, h1, reduceIte, Except.bind,
      checkpoint_design]
    exact flowFromMood_manifest cfg env _ hm hp
  · have h1' : st.research_approved = true := by
      cases hv : st.research_approved
      · exact absurd hv h1
      · rfl
    simp only [run_design_and_math, h1', hd, Bool.true_eq_false, reduceIte,
      Except.bind]
    exact flowFromMood_manifest cfg env _ hm hp

end Arkainbrain

namespace Arkainbrain

/-- C6 (amended): for every run in which no stage raises a top-level
exception, the job ends in complete status; the completion manifest — with
input parameters, presence flags, cost summary, approval outcomes, recorded
errors, file list and start/end timestamps — is written exactly when the art
checkpoint approved (mood_board_approved).  A run truncated by a checkpoint
rejection still ends complete but writes no manifest. -/
theorem complete_run_manifest_iff_art_approved
    (cfg : FlowConfig) (env : FlowEnv) (st0 : PipelineState)
    (hres : env.researchCrew = .ok ()) (hdes : env.designCrew = .ok ())
    (hmood : env.moodCrew = .ok ()) (hprod : env.productionCrew = .ok ()) :
    RunSat (runFlow cfg env st0) (fun st m =>
      (st.mood_board_approved = true →
        m = some (mkManifest env st) ∧
        (mkManifest env st).game_title = st.game_idea.theme ∧
        (mkManifest env st).input_parameters = st.game_idea.params ∧
        (mkManifest env st).cost = env.cost ∧
        (mkManifest env st).hitl_approvals = st.hitl_approvals ∧
        (mkManifest env st).errors = st.errors ∧
        (mkManifest env st).files_generated = env.allFiles ∧
        (mkManifest env st).pdf_files = st.pdf_files ∧
        (mkManifest env st).started_at = st.started_at ∧
        (mkManifest env st).completed_at = env.nowEnd) ∧
      (st.mood_board_approved = false → m = none)) ∧
    workerTerminalStatus (runFlow cfg env st0) = .complete := by
  have hbase : RunSat (runFlow cfg env st0) (fun st m =>
      (st.mood_board_approved = true → m = some (mkManifest env st)) ∧
      (st.mood_board_approved = false → m = none)) := by
    unfold runFlow
    simp only [run_research, hres, Except.bind]
    exact flowFromDesign_manifest cfg env _ hdes hmood hprod
  refine ⟨?_, runsat_complete _ _ hbase⟩
  refine runsat_imp _ _ _ ?_ hbase
  intro st m hpm
  exact ⟨fun hf => ⟨hpm.1 hf, rfl, rfl, rfl, rfl, rfl, rfl, rfl, rfl, rfl⟩, hpm.2⟩

/-! ## Concrete scenarios -/

/-- HITL enabled, not auto mode. -/
def hitlCfg : FlowConfig := { auto_mode := false, hitlEnabled := true }

/-- A CLI decision that approves without feedback. -/
def approveCli : HitlDecision := { web := none, cli := (true, "") }

/-- All crews succeed; research and design approve at the CLI; the art
checkpoint is rejected at the CLI with feedback "bad palette". -/
def rejectArtEnv : FlowEnv :=
  { researchCrew := .ok (), designCrew := .ok (), moodCrew := .ok ()
    productionCrew := .ok ()
    trendRadar := none, jurisdiction := none, patentScan := none
    marketDoc := "market", gddDoc := "gdd", mathDoc := "math"
    moodDoc := "mood", artDoc := "art", compDoc := "compliance"
    soundDoc := none, certPlan := none, protoPath := none
    pdfOutcome := .ok [], allFiles := [], cost := { total_tokens := 0, estimated_cost_usd_cents := 0 }
    nowEnd := "2026-01-02T00:00:00"
    dResearch := approveCli, dDesign := approveCli
    dArt := { web := none, cli := (false, "bad palette") } }

/-- Like rejectArtEnv but the art rejection's CLI feedback is the literal
'skip' sentinel. -/
def rejectArtSkipEnv : FlowEnv :=
  { rejectArtEnv with dArt := { web := none, cli := (false, "skip") } }

/-- All checkpoints approve at the CLI. -/
def approveAllEnv : FlowEnv :=
  { rejectArtEnv with dArt := approveCli }

end Arkainbrain

namespace Arkainbrain

theorem checkpoint_rejection_silently_truncates_witness :
    rejectedWith "" (Gate.decision .artReview rejectArtEnv) "bad palette" ∧
    (RunSat (runFlow hitlCfg rejectArtEnv {}) (fun st m =>
      m = none ∧
      hitlRejectMsg (Gate.cpName .artReview) "bad palette" ∈ st.errors ∧
      Gate.downstreamUntouched .artReview {} st) ∧
    workerTerminalStatus (runFlow hitlCfg rejectArtEnv {}) = .complete) := by
  have hrej : rejectedWith "" (Gate.decision .artReview rejectArtEnv) "bad palette" := by
    rw [rejectedWith, if_pos rfl]
    exact ⟨rfl, by decide⟩
  have hprior : Gate.priorApproved .artReview "" rejectArtEnv := by
    constructor
    · rw [approvesFor, if_pos rfl]
      rfl
    · rw [approvesFor, if_pos rfl]
      rfl
  exact ⟨hrej, checkpoint_rejection_silently_truncates hitlCfg rejectArtEnv {}
    .artReview "bad palette" rfl rfl rfl rfl rfl rfl rfl hprior hrej⟩

/-- C2 counterexample to the claim as stated: the art checkpoint is rejected
with feedback text "skip" at the CLI prompt, yet state.errors gains no entry
referencing it (the prompt treats 'skip' as the no-feedback sentinel); the
rejection itself is recorded and the run still completes. -/
theorem checkpoint_rejection_skip_feedback_unrecorded :
    RunSat (runFlow hitlCfg rejectArtSkipEnv {}) (fun st m =>
      st.errors = [] ∧
      st.hitl_approvals =
        [("post_research", true), ("post_design_math", true),
         ("post_art_review", false)] ∧
      m = none) ∧
    workerTerminalStatus (runFlow hitlCfg rejectArtSkipEnv {}) = .complete := by
  constructor
  · exact ⟨rfl, rfl, rfl⟩
  · rfl

/-- C6 counterexample to the claim as stated: a run in which no stage raises
— the art checkpoint was rejected — ends complete but writes NO completion
manifest (assemble_package returns before building it). -/
theorem rejected_run_completes_without_manifest :
    RunSat (runFlow hitlCfg rejectArtEnv {}) (fun _ m => m = none) ∧
    workerTerminalStatus (runFlow hitlCfg rejectArtEnv {}) = .complete := by
  exact ⟨rfl, rfl⟩

theorem complete_run_manifest_iff_art_approved_witness :
    approveAllEnv.researchCrew = .ok () ∧
    (RunSat (runFlow hitlCfg approveAllEnv {}) (fun st m =>
      (st.mood_board_approved = true →
        m = some (mkManifest approveAllEnv st) ∧
        (mkManifest approveAllEnv st).game_title = st.game_idea.theme ∧
        (mkManifest approveAllEnv st).input_parameters = st.game_idea.params ∧
        (mkManifest approveAllEnv st).cost = approveAllEnv.cost ∧
        (mkManifest approveAllEnv st).hitl_approvals = st.hitl_approvals ∧
        (mkManifest approveAllEnv st).errors = st.errors ∧
        (mkManifest approveAllEnv st).files_generated = approveAllEnv.allFiles ∧
        (mkManifest approveAllEnv st).pdf_files = st.pdf_files ∧
        (mkManifest approveAllEnv st).started_at = st.started_at ∧
        (mkManifest approveAllEnv st).completed_at = approveAllEnv.nowEnd) ∧
      (st.mood_board_approved = false → m = none)) ∧
    workerTerminalStatus (runFlow hitlCfg approveAllEnv {}) = .complete) := by
  exact ⟨rfl, complete_run_manifest_iff_art_approved hitlCfg approveAllEnv {}
    rfl rfl rfl rfl⟩

end Arkainbrain

namespace Arkainbrain

/-! ## Job status lifecycle (web_app.py + the worker)

api_launch_pipeline / api_launch_recon INSERT a fresh row with status
'queued'; _recover_stale_jobs is the sweep embedded above.  The worker's own
status writes live in worker.py, which is not part of src/; the workerStart
and workerFinish events below are modelled from the spec (§4.4, §7, §8:
queued → running when the worker picks the job up, running → complete or
failed when the flow returns or raises). -/

inductive StoreEvent
  | launch (id : String) (now : Int)
  | workerStart (id : String)
  | workerFinish (id : String) (ok : Bool) (err : Option String)
  | recoverySweep (now : Int)
  deriving DecidableEq, Repr

/-- A single-row UPDATE keyed by job identifier. -/
def updateJob (store : List Job) (id : String) (f : Job → Job) : List Job :=
  store.map fun j => if j.id = id then f j else j

/-- One mutation of the job store. -/
def stepStore (store : List Job) : StoreEvent → List Job
  | .launch id now =>
      store ++ [{ id := id, status := .queued, createdAt := now, error := none }]
  | .workerStart id =>
      updateJob store id fun j =>
        if j.status = .queued then { j with status := .running } else j
  | .workerFinish id ok err =>
      updateJob store id fun j =>
        if j.status = .running then
          { j with status := if ok then .complete else .failed, error := err }
        else j
  | .recoverySweep now => recover_stale_jobs now store

/-- The status edges the claim allows: queued→running→{complete,failed}. -/
def claimedEdge : JobStatus → JobStatus → Bool
  | .queued, .running => true
  | .running, .complete => true
  | .running, .failed => true
  | _, _ => false

/-- The edges the code actually takes: the claimed ones plus queued→failed,
performed by the recovery sweep on a stale queued job. -/
def actualEdge (a b : JobStatus) : Bool :=
  claimedEdge a b || (a == .queued && b == .failed)

/-- A queued job whose creation time predates the staleness threshold. -/
def staleQueuedJob : Job :=
  { id := "j0", status := .queued, createdAt := 0, error := none }

end Arkainbrain

namespace Arkainbrain

/-- C5 counterexample: the recovery sweep moves a stale queued job directly
to failed — an edge outside the claimed set queued→running→{complete,failed}. -/
theorem sweep_moves_queued_directly_to_failed :
    stepStore [staleQueuedJob] (.recoverySweep 100000) =
      [{ id := "j0", status := .failed, createdAt := 0,
         error := some staleErrorMsg }] ∧
    claimedEdge .queued .failed = false := by
  exact ⟨rfl, rfl⟩

/-- C5 (amended): every job-store update leaves each existing job's identity
intact and moves its status either not at all or along one of the edges
queued→running, running→complete, running→failed, or queued→failed (the last
only by the recovery sweep reaping a stale queued job); in particular the
only edge into complete is from running, so no job reaches complete without
its status having been running. -/
theorem job_status_edges (store : List Job) (e : StoreEvent) (i : Nat)
    (h : i < store.length) :
    ∃ h2 : i < (stepStore store e).length,
      ((stepStore store e).get ⟨i, h2⟩).id = (store.get ⟨i, h⟩).id ∧
      (((stepStore store e).get ⟨i, h2⟩).status = (store.get ⟨i, h⟩).status ∨
        actualEdge (store.get ⟨i, h⟩).status
          ((stepStore store e).get ⟨i, h2⟩).status = true) ∧
      (((stepStore store e).get ⟨i, h2⟩).status = .complete →
        (store.get ⟨i, h⟩).status = .complete ∨
        (store.get ⟨i, h⟩).status = .running) := by
  cases e with
  | launch id now =>
      have h2 : i < (stepStore store (.launch id now)).length := by
        simp only [stepStore, List.length_append, List.length_cons,
          List.length_nil]
        omega
      have hget : (stepStore store (.launch id now)).get ⟨i, h2⟩ =
          store.get ⟨i, h⟩ := by
        simp only [stepStore, List.get_eq_getElem]
        exact List.getElem_append_left h
      exact ⟨h2, by rw [hget], Or.inl (by rw [hget]),
        fun hc => Or.inl (by rw [hget] at hc; exact hc)⟩
  | workerStart id =>
      have h2 : i < (stepStore store (.workerStart id)).length := by
        simpa [stepStore, updateJob] using h
      refine ⟨h2, ?_⟩
      simp only [stepStore, updateJob, List.get_eq_getElem, List.getElem_map]
      by_cases h1 : store[i].id = id
      · rw [if_pos h1]
        by_cases hq : store[i].status = .queued
        · rw [if_pos hq]
          refine ⟨rfl, Or.inr ?_, fun hcc => by simp at hcc⟩
          rw [hq]
          rfl
        · rw [if_neg hq]
          exact ⟨rfl, Or.inl rfl, fun hcc => Or.inl hcc⟩
      · rw [if_neg h1]
        exact ⟨rfl, Or.inl rfl, fun hcc => Or.inl hcc⟩
  | workerFinish id ok err =>
      have h2 : i < (stepStore store (.workerFinish id ok err)).length := by
        simpa [stepStore, updateJob] using h
      refine ⟨h2, ?_⟩
      simp only [stepStore, updateJob, List.get_eq_getElem, List.getElem_map]
      by_cases h1 : store[i].id = id
      · rw [if_pos h1]
        by_cases hr : store[i].status = .running
        · rw [if_pos hr]
          cases ok
          · refine ⟨rfl, Or.inr ?_, fun hcc => by simp at hcc⟩
            rw [hr]
            rfl
          · refine ⟨rfl, Or.inr ?_, fun _ => Or.inr hr⟩
            rw [hr]
            rfl
        · rw [if_neg hr]
          exact ⟨rfl, Or.inl rfl, fun hcc => Or.inl hcc⟩
      · rw [if_neg h1]
        exact ⟨rfl, Or.inl rfl, fun hcc => Or.inl hcc⟩
  | recoverySweep now =>
      have h2 : i < (stepStore store (.recoverySweep now)).length := by
        simpa [stepStore, recover_stale_jobs] using h
      refine ⟨h2, ?_⟩
      simp only [stepStore, recover_stale_jobs, List.get_eq_getElem,
        List.getElem_map, reapJob]
      by_cases hc : (store[i].status = .running ∨ store[i].status = .queued) ∧
          store[i].createdAt < now - staleThresholdSeconds
      · rw [if_pos hc]
        obtain ⟨hst, hold⟩ := hc
        refine ⟨rfl, Or.inr ?_, fun hcc => by simp at hcc⟩
        rcases hst with hst | hst
        · rw [hst]
          rfl
        · rw [hst]
          rfl
      · rw [if_neg hc]
        exact ⟨rfl, Or.inl rfl, fun hcc => Or.inl hcc⟩

theorem job_status_edges_witness :
    (0 : Nat) < ([staleQueuedJob] : List Job).length ∧
    (∃ h2 : 0 < (stepStore [staleQueuedJob] (.workerStart "j0")).length,
      ((stepStore [staleQueuedJob] (.workerStart "j0")).get ⟨0, h2⟩).id =
        (([staleQueuedJob] : List Job).get ⟨0, by decide⟩).id ∧
      (((stepStore [staleQueuedJob] (.workerStart "j0")).get ⟨0, h2⟩).status =
          (([staleQueuedJob] : List Job).get ⟨0, by decide⟩).status ∨
        actualEdge (([staleQueuedJob] : List Job).get ⟨0, by decide⟩).status
          ((stepStore [staleQueuedJob] (.workerStart "j0")).get ⟨0, h2⟩).status
          = true) ∧
      (((stepStore [staleQueuedJob] (.workerStart "j0")).get ⟨0, h2⟩).status =
          .complete →
        (([staleQueuedJob] : List Job).get ⟨0, by decide⟩).status = .complete ∨
        (([staleQueuedJob] : List Job).get ⟨0, by decide⟩).status = .running)) := by
  exact ⟨by decide,
    job_status_edges [staleQueuedJob] (.workerStart "j0") 0 (by decide)⟩

end Arkainbrain

namespace Arkainbrain

/-! ## Initialize stage: game_slug and output directory (flows/pipeline.py,
SlotStudioFlow.initialize)

slug = "".join(c if c.isalnum() else "_" for c in theme.lower())[:40];
game_slug = f"{slug}_{timestamp}"; output_dir = OUTPUT_DIR / game_slug.
Python's str.isalnum is kept as a parameter (its exact Unicode extent is
irrelevant here; the theorems only need that the path-dangerous characters
are not alphanumeric, which holds for any isalnum). -/

def pySanitize (isalnum : Char → Bool) (s : String) : String :=
  String.mk (s.data.map fun c => if isalnum c then c else '_')

/-- game_slug: the sanitized lowercased theme truncated to 40 characters,
an underscore, and the strftime("%Y%m%d_%H%M%S") timestamp. -/
def gameSlug (isalnum : Char → Bool) (loweredTheme ts : String) : String :=
  String.mk ((pySanitize isalnum loweredTheme).data.take 40) ++ "_" ++ ts

/-- output_dir = Path(OUTPUT_DIR) / game_slug. -/
def jobOutputDir (outputRoot slug : String) : String :=
  outputRoot ++ "/" ++ slug

end Arkainbrain

namespace Arkainbrain

/-- C9: for every theme (quantified through its lowercased form) and every
timestamp made of digits and underscores, the derived game_slug contains no
path separator (forward or backward slash) and no dot — hence no parent
directory reference — and is non-empty, so OUTPUT_DIR / game_slug is always
a direct child of the configured output root.  The hypotheses on isalnum
hold for Python's str.isalnum: '/', chr(92) and '.' are not alphanumeric. -/
theorem game_slug_path_safe (isalnum : Char → Bool) (loweredTheme ts : String)
    (hslash : isalnum '/' = false) (hback : isalnum '\\' = false)
    (hdot : isalnum '.' = false)
    (hts : ∀ c ∈ ts.data, c.isDigit = true ∨ c = '_') :
    '/' ∉ (gameSlug isalnum loweredTheme ts).data ∧
    '\\' ∉ (gameSlug isalnum loweredTheme ts).data ∧
    '.' ∉ (gameSlug isalnum loweredTheme ts).data ∧
    gameSlug isalnum loweredTheme ts ≠ "" := by
  have hdata : (gameSlug isalnum loweredTheme ts).data =
      (loweredTheme.data.map fun ch => if isalnum ch then ch else '_').take 40
        ++ '_' :: ts.data := by
    simp [gameSlug, pySanitize, String.data_append]
  have key : ∀ c ∈ (gameSlug isalnum loweredTheme ts).data,
      isalnum c = true ∨ c = '_' ∨ c.isDigit = true := by
    intro c hc
    rw [hdata] at hc
    rcases List.mem_append.mp hc with hc1 | hc2
    · have hc1b := List.mem_of_mem_take hc1
      obtain ⟨c0, _, rfl⟩ := List.mem_map.mp hc1b
      by_cases h0 : isalnum c0 = true
      · left
        simp [h0]
      · right; left
        have h0f : isalnum c0 = false := by
          cases hv : isalnum c0
          · rfl
          · exact absurd hv h0
        simp [h0f]
    · rcases List.mem_cons.mp hc2 with rfl | hmem
      · right; left; rfl
      · rcases hts c hmem with hd | rfl
        · right; right; exact hd
        · right; left; rfl
  refine ⟨?_, ?_, ?_, ?_⟩
  · intro hmem
    rcases key _ hmem with hcase | hcase | hcase
    · rw [hslash] at hcase
      exact absurd hcase (by decide)
    · exact absurd hcase (by decide)
    · exact absurd hcase (by decide)
  · intro hmem
    rcases key _ hmem with hcase | hcase | hcase
    · rw [hback] at hcase
      exact absurd hcase (by decide)
    · exact absurd hcase (by decide)
    · exact absurd hcase (by decide)
  · intro hmem
    rcases key _ hmem with hcase | hcase | hcase
    · rw [hdot] at hcase
      exact absurd hcase (by decide)
    · exact absurd hcase (by decide)
    · exact absurd hcase (by decide)
  · intro hempty
    have hnil : (gameSlug isalnum loweredTheme ts).data = [] := by
      rw [hempty]
    rw [hdata] at hnil
    exact absurd hnil (by simp)

theorem game_slug_path_safe_witness :
    Char.isAlphanum '/' = false ∧ Char.isAlphanum '\\' = false ∧
    Char.isAlphanum '.' = false ∧
    (∀ c ∈ ("20260101_120000" : String).data, c.isDigit = true ∨ c = '_') ∧
    '/' ∉ (gameSlug Char.isAlphanum "ancient rome: gods & gold!/.."
      "20260101_120000").data := by
  refine ⟨by decide, by decide, by decide, by decide, ?_⟩
  exact (game_slug_path_safe Char.isAlphanum "ancient rome: gods & gold!/.."
    "20260101_120000" (by decide) (by decide) (by decide) (by decide)).1

end Arkainbrain
